import Mathlib

/-!
Verification of the MaiBot LPMM knowledge-store core.

Shallow embedding of the parts of the repository the claims address:

* `src/chat/knowledge/ie_process.py` — the LLM-assisted extraction
  pipeline (`_extract_json_from_text`, `_entity_extract`,
  `_fallback_rdf_triples`, `_rdf_triple_extract`, `info_extract_from_str`);
* `scripts/delete_lpmm_items.py` — the deletion entry point
  (`normalize_paragraph_keys`, the safety-threshold logic of `main`);
* `src/bw_learner/message_recorder.py` — the bounded LRU participant list
  (`MessageRecorder._update_person_list`);
* `src/llm_models/model_performance_cache.py` — cache loading
  (`ModelPerformanceCache._load`).

Python strings are modelled as `List Char`; Python values that may be any
JSON-shaped object are modelled by the inductive `PyVal`; Python functions
that may raise are modelled in `Except Unit`; the external LLM transport is
modelled by per-attempt outcome functions.
-/

/-- Model of a Python value as produced by `json.loads` / `json_repair`:
`None`, booleans, numbers, strings, lists and dicts.  Numbers are collapsed
to `Int` (their exact value is never inspected by the embedded code). -/
inductive PyVal where
  | null : PyVal
  | bool (b : Bool) : PyVal
  | num (n : Int) : PyVal
  | str (s : List Char) : PyVal
  | arr (elems : List PyVal) : PyVal
  | obj (fields : List (List Char × PyVal)) : PyVal
deriving Repr

/-- Python `isinstance(v, dict)`. -/
def PyVal.isObj : PyVal → Bool
  | .obj _ => true
  | _ => false

/-- Python `isinstance(v, list)`. -/
def PyVal.isArr : PyVal → Bool
  | .arr _ => true
  | _ => false

mutual

/-- Decidable equality on `PyVal` (Python `==` between JSON-shaped values). -/
def PyVal.beq : PyVal → PyVal → Bool
  | .null, .null => true
  | .bool a, .bool b => a == b
  | .num a, .num b => a == b
  | .str a, .str b => a == b
  | .arr a, .arr b => PyVal.beqList a b
  | .obj a, .obj b => PyVal.beqFields a b
  | _, _ => false

def PyVal.beqList : List PyVal → List PyVal → Bool
  | [], [] => true
  | a :: as', b :: bs' => PyVal.beq a b && PyVal.beqList as' bs'
  | _, _ => false

def PyVal.beqFields : List (List Char × PyVal) → List (List Char × PyVal) → Bool
  | [], [] => true
  | (k, v) :: as', (l, w) :: bs' => k == l && PyVal.beq v w && PyVal.beqFields as' bs'
  | _, _ => false

end

/-- The outcome of `repair_json` + `json.loads` on the model response text:
`none` models a `None` input text; `some (.error ())` models the repair/parse
raising; `some (.ok v)` models a successful parse to the value `v`. -/
abbrev ParseOutcome := Option (Except Unit PyVal)

/-- Embedding of `_extract_json_from_text` (ie_process.py lines 14–47).
The input is the parse outcome of the text; every branch of the Python
function (including the `except` handler and the `None` guard) returns a
value, so the embedding is a total function.
* `None` input → `[]`;
* parse raised → caught, `[]`;
* parsed list → that list;
* parsed dict with exactly one key whose value is a list → that list;
* any other dict → the dict itself;
* any other value → `[]`. -/
def extractJsonFromText (input : ParseOutcome) : PyVal :=
  match input with
  | none => .arr []
  | some (.error _) => .arr []
  | some (.ok parsed) =>
    match parsed with
    | .arr l => .arr l
    | .obj kvs =>
      match kvs with
      | [(_, .arr l)] => .arr l
      | _ => .obj kvs
    | _ => .arr []

/-- Lookup in a Python dict modelled as a field list.  Dicts produced by
`json.loads` keep the last binding of a duplicated key, hence `getLast?`. -/
def dictGet (kvs : List (List Char × PyVal)) (k : List Char) : Option PyVal :=
  ((kvs.filter (fun kv => kv.1 == k)).getLast?).map (fun kv => kv.2)

/-- The denylist filter of `_entity_extract` (ie_process.py lines 84–88):
keep `entity` iff `entity is not None and entity != "" and
entity not in INVALID_ENTITY`.  Python's `==` across types means a
non-string entity is never equal to `""` nor to a denylist string. -/
def keepEntity (denylist : List (List Char)) (v : PyVal) : Bool :=
  match v with
  | .null => false
  | .str s => !(s == []) && !(denylist.contains s)
  | _ => true

/-- Embedding of the post-parse part of `_entity_extract`
(ie_process.py lines 68–93), applied to the value returned by
`_extract_json_from_text`.  `INVALID_ENTITY` is defined in
`src/chat/knowledge/__init__.py`, which is not part of the sources;
it is kept abstract as the `denylist` parameter (the claims only use
that it is a set of placeholder strings).
* a list is filtered by `keepEntity`;
* a dict is unwrapped at the first of the keys
  `entities`, `result`, `data`, `items` whose value is a list,
  else the attempt raises;
* any other shape raises;
* an empty list after filtering raises (`实体提取结果为空`). -/
def entityExtractResult (denylist : List (List Char)) (r : PyVal) :
    Except Unit (List PyVal) :=
  let unwrapped : Except Unit (List PyVal) :=
    match r with
    | .arr l => .ok l
    | .obj kvs =>
      let keys : List (List Char) :=
        ["entities".data, "result".data, "data".data, "items".data]
      match keys.findSome? (fun k =>
          match dictGet kvs k with
          | some (.arr l) => some l
          | _ => none) with
      | some l => .ok l
      | none => .error ()
    | _ => .error ()
  match unwrapped with
  | .error e => .error e
  | .ok l =>
    let filtered := l.filter (keepEntity denylist)
    if filtered.isEmpty then .error () else .ok filtered

/-! ## `_fallback_rdf_triples` and `_rdf_triple_extract` (ie_process.py 96–191) -/

/-- The characters Python's `str.strip()` (no argument) removes: the Unicode
whitespace set recognised by `str.isspace`. -/
def pyIsSpace (c : Char) : Bool :=
  c == ' ' || c == '\t' || c == '\n' || c == '\x0b' || c == '\x0c' || c == '\r' ||
  c == '\x1c' || c == '\x1d' || c == '\x1e' || c == '\x1f' || c == '\x85' ||
  c == '\xa0' || c == ' ' ||
  (' ' ≤ c && c ≤ ' ') ||
  c == ' ' || c == ' ' || c == ' ' || c == ' ' || c == '　'

/-- Python `s.lstrip(set)`: drop the leading characters belonging to `set`. -/
def lstripSet (set : List Char) (s : List Char) : List Char :=
  s.dropWhile (fun c => set.contains c)

/-- Python `s.rstrip(set)`: drop the trailing characters belonging to `set`. -/
def rstripSet (set : List Char) (s : List Char) : List Char :=
  (s.reverse.dropWhile (fun c => set.contains c)).reverse

/-- Python `s.strip(set)`: both ends. -/
def stripSet (set : List Char) (s : List Char) : List Char :=
  rstripSet set (lstripSet set s)

/-- Python `s.strip()` with no argument: strip Python whitespace from both ends. -/
def pyStripWs (s : List Char) : List Char :=
  ((s.dropWhile pyIsSpace).reverse.dropWhile pyIsSpace).reverse

/-- Python `pat in s` for strings: substring test. -/
def subStrIn (pat : List Char) : List Char → Bool
  | [] => pat.isEmpty
  | c :: rest => pat.isPrefixOf (c :: rest) || subStrIn pat rest

/-- Python `s.find(pat)` restricted to the found case: index of the first
occurrence of `pat` in `s`, `none` when absent (Python returns `-1`). -/
def findSubIdx (pat : List Char) : List Char → Option Nat
  | [] => if pat.isEmpty then some 0 else none
  | c :: rest =>
    if pat.isPrefixOf (c :: rest) then some 0
    else (findSubIdx pat rest).map (· + 1)

/-- Python `next((entity for entity in entities if pred(entity)), None)` where
`pred` applies a string operation to `entity`: scanning stops at the first
entity satisfying `pred`; reaching a non-string entity raises `TypeError`
(Python `str.startswith` / `in` reject non-string arguments). -/
def firstEntityMatch (pred : List Char → Bool) :
    List PyVal → Except Unit (Option (List Char))
  | [] => .ok none
  | .str s :: rest =>
    if pred s then .ok (some s) else firstEntityMatch pred rest
  | _ :: _ => .error ()

/-- The literal `"：: ，, 、　"` — the separator set stripped after the subject. -/
def sepAfterSubject : List Char := "：: ，, 、　".data

/-- The literal `["是", "意味着", "代表", "属于", "指", "体现"]`. -/
def relationCandidates : List (List Char) :=
  ["是".data, "意味着".data, "代表".data, "属于".data, "指".data, "体现".data]

/-- The pattern `r"[。；;！!]"` — the sentence terminators of the fallback. -/
def sentenceTerm : List Char := "。；;！!".data

/-- The literal `"：: ，, 「」『』“”\"'"` — punctuation stripped around the object. -/
def objectStripChars : List Char :=
  ['：', ':', ' ', '，', ',', '「', '」', '『', '』', '“', '”', '"', Char.ofNat 39]

/-- The literal `"，, 的"` — characters trimmed after capping the object at 120. -/
def objectCapStrip : List Char := ['，', ',', ' ', '的']

/-- The part of `_fallback_rdf_triples` after a subject has been selected
(ie_process.py lines 109–135).  `subject` occurs in `text` by construction
(it was selected as a prefix or an infix), so Python's `find` cannot
return `-1`; `getD 0` covers the unreachable branch. -/
def fallbackAfterSubject (text subject : List Char) :
    List (List (List Char)) :=
  let subjectIndex := (findSubIdx subject text).getD 0
  let remainder := lstripSet sepAfterSubject (text.drop (subjectIndex + subject.length))
  if remainder.isEmpty then []
  else
    let pair :=
      match relationCandidates.find? (fun r => r.isPrefixOf remainder) with
      | some r => (r, remainder.drop r.length)
      | none => ("是".data, remainder)
    let objectText :=
      stripSet objectStripChars (pair.2.takeWhile (fun c => !sentenceTerm.contains c))
    if objectText.isEmpty then []
    else
      let objectText :=
        if 120 < objectText.length then rstripSet objectCapStrip (objectText.take 120)
        else objectText
      [[subject, pair.1, objectText]]

/-- Embedding of `_fallback_rdf_triples` (ie_process.py lines 96–135).
Entities are the raw values produced by entity extraction (which may
contain non-strings Python would choke on, hence `Except`). -/
def fallbackRdfTriples (paragraph : List Char) (entities : List PyVal) :
    Except Unit (List (List (List Char))) :=
  let text := pyStripWs (paragraph.filter (fun c => c != '﻿'))
  if text.isEmpty || entities.isEmpty then .ok []
  else
    match firstEntityMatch (fun s => s.isPrefixOf text) entities with
    | .error e => .error e
    | .ok (some subject) => .ok (fallbackAfterSubject text subject)
    | .ok none =>
      match firstEntityMatch (fun s => subStrIn s text) entities with
      | .error e => .error e
      | .ok (some subject) => .ok (fallbackAfterSubject text subject)
      | .ok none => .ok []

/-- Predicate: `triple` fails the shape check of `_rdf_triple_extract`
(ie_process.py lines 182–189): not a list, or not of length 3, or one of
the three elements `is None`, or one of them `== ""` (Python `==` across
types: only the string `""` matches). -/
def badTriple (t : PyVal) : Bool :=
  match t with
  | .arr [a, b, c] =>
    (match a with | .null => true | .str [] => true | _ => false) ||
    (match b with | .null => true | .str [] => true | _ => false) ||
    (match c with | .null => true | .str [] => true | _ => false)
  | _ => true

/-- A fallback triple (three strings) as the Python list it becomes. -/
def tripleToPyVal (t : List (List Char)) : PyVal := .arr (t.map .str)

/-- Embedding of the post-parse part of `_rdf_triple_extract`
(ie_process.py lines 157–191), applied to the value returned by
`_extract_json_from_text`:
* a dict is unwrapped at the first of `triples`, `result`, `data`, `items`
  whose value is a list, else the attempt raises;
* a non-list non-dict raises;
* an empty list triggers `_fallback_rdf_triples`; an empty fallback raises
  (`RDF三元组提取结果为空`);
* any triple failing `badTriple` makes the whole attempt raise
  (`RDF提取结果格式错误`). -/
def rdfTripleExtractPost (r : PyVal) (paragraph : List Char)
    (entities : List PyVal) : Except Unit (List PyVal) :=
  let unwrapped : Except Unit (List PyVal) :=
    match r with
    | .arr l => .ok l
    | .obj kvs =>
      let keys : List (List Char) :=
        ["triples".data, "result".data, "data".data, "items".data]
      match keys.findSome? (fun k =>
          match dictGet kvs k with
          | some (.arr l) => some l
          | _ => none) with
      | some l => .ok l
      | none => .error ()
    | _ => .error ()
  match unwrapped with
  | .error e => .error e
  | .ok l =>
    let withFallback : Except Unit (List PyVal) :=
      if l.isEmpty then
        match fallbackRdfTriples paragraph entities with
        | .error e => .error e
        | .ok [] => .error ()
        | .ok fb => .ok (fb.map tripleToPyVal)
      else .ok l
    match withFallback with
    | .error e => .error e
    | .ok result =>
      if result.any badTriple then .error () else .ok result

/-! ## `info_extract_from_str` (ie_process.py 194–227) -/

/-- Observable events of one run of `info_extract_from_str`: an attempt of a
stage (`1` = entity extraction, `2` = relation extraction) with its 0-based
attempt index, or a `time.sleep` of the given number of seconds. -/
inductive RetryEv where
  | att (stage : Nat) (idx : Nat) : RetryEv
  | sleep (stage : Nat) (seconds : Nat) : RetryEv
deriving Repr, DecidableEq

/-- One retry loop of `info_extract_from_str`.  The loop keeps a counter
`try_count` (number of failures so far); after a failure it retries after
`time.sleep(5)` while `try_count < 3`, else gives up.  The recursion is
driven by the remaining-retry budget `fuel = 3 - try_count` after the
failure; the loop is entered with `try_count = 0`, i.e. `fuel = 2`.
`attempts k` is the outcome of the body on its `k`-th execution. -/
def retryLoopAux (stage : Nat) (attempts : Nat → Except Unit α) :
    Nat → Nat → List RetryEv × Option α
  | k, fuel =>
    match attempts k with
    | .ok a => ([.att stage k], some a)
    | .error _ =>
      match fuel with
      | 0 => ([.att stage k], none)
      | f + 1 =>
        let rest := retryLoopAux stage attempts (k + 1) f
        (.att stage k :: .sleep stage 5 :: rest.1, rest.2)

/-- The retry loop as entered by `info_extract_from_str`: first attempt at
index 0, at most two further retries (the `try_count < 3` bound). -/
def retryLoop (stage : Nat) (attempts : Nat → Except Unit α) :
    List RetryEv × Option α :=
  retryLoopAux stage attempts 0 2

/-- Embedding of `info_extract_from_str` (ie_process.py lines 194–227) over
abstract per-attempt outcomes: `entAttempts k` is the outcome of the `k`-th
call to `_entity_extract`, and `rdfAttempts ents k` the outcome of the
`k`-th call to `_rdf_triple_extract` given the extracted entities.  The
result `none` models the `(None, None)` failure signal.  Returns the event
trace alongside the result. -/
def infoExtractFromStr (entAttempts : Nat → Except Unit (List PyVal))
    (rdfAttempts : List PyVal → Nat → Except Unit (List PyVal)) :
    List RetryEv × Option (List PyVal × List PyVal) :=
  let stage1 := retryLoop 1 entAttempts
  match stage1.2 with
  | none => (stage1.1, none)
  | some ents =>
    let stage2 := retryLoop 2 (rdfAttempts ents)
    match stage2.2 with
    | none => (stage1.1 ++ stage2.1, none)
    | some triples => (stage1.1 ++ stage2.1, some (ents, triples))

/-- Embedding of `info_extract_from_str` with the two stage bodies instantiated to their
embeddings: attempt `k` of the entity stage parses the `k`-th model response
`entResponses k` with `_extract_json_from_text` and post-processes it with
`_entity_extract`'s logic; likewise for the relation stage with
`_rdf_triple_extract`'s logic (which closes over the extracted entities). -/
def infoExtractFull (denylist : List (List Char)) (paragraph : List Char)
    (entResponses rdfResponses : Nat → ParseOutcome) :
    List RetryEv × Option (List PyVal × List PyVal) :=
  infoExtractFromStr
    (fun k => entityExtractResult denylist (extractJsonFromText (entResponses k)))
    (fun ents k =>
      rdfTripleExtractPost (extractJsonFromText (rdfResponses k)) paragraph ents)

/-! ## `scripts/delete_lpmm_items.py` -/

/-- The literal `"paragraph-"` — the key tag of paragraph keys. -/
def paragraphTag : List Char := "paragraph-".data

/-- Python `s.replace(pat, "", 1)`: remove the first occurrence of `pat`
(the string is returned unchanged when `pat` does not occur). -/
def removeFirstOcc (pat : List Char) : List Char → List Char
  | [] => []
  | c :: rest =>
    if pat.isPrefixOf (c :: rest) then (c :: rest).drop pat.length
    else c :: removeFirstOcc pat rest

/-- Embedding of `normalize_paragraph_keys` (delete_lpmm_items.py lines
51–62): each raw identifier that starts with `"paragraph-"` is kept as the
key and has that tag removed once (its first occurrence) for the hash;
any other identifier is the hash and gets the tag prepended for the key. -/
def normalizeParagraphKeys (rawHashes : List (List Char)) :
    List (List Char) × List (List Char) :=
  match rawHashes with
  | [] => ([], [])
  | h :: rest =>
    let tail := normalizeParagraphKeys rest
    if paragraphTag.isPrefixOf h then
      (h :: tail.1, removeFirstOcc paragraphTag h :: tail.2)
    else
      ((paragraphTag ++ h) :: tail.1, h :: tail.2)

/-- Order-preserving de-duplication (delete_lpmm_items.py lines 230–232):
`[h for h in raw_hashes if not (h in seen or seen.add(h))]`. -/
def dedupeKeepFirst (seen : List (List Char)) :
    List (List Char) → List (List Char)
  | [] => []
  | h :: rest =>
    if seen.contains h then dedupeKeepFirst seen rest
    else h :: dedupeKeepFirst (h :: seen) rest

/-- The flag arguments of the deletion entry point `main`
(delete_lpmm_items.py lines 81–92). -/
structure DelArgs where
  deleteEntities : Bool
  deleteRelations : Bool
  removeOrphanEntities : Bool
  dryRun : Bool
  yes : Bool
  maxDeleteNodes : Int
deriving Repr, DecidableEq

/-- The store-touching steps `main` can perform, in order.  Loading the
embedding collections and the knowledge graph is itself an observable step
(`loadStores`): the safety refusal must fire before it. -/
inductive DelEffect where
  | loadStores : DelEffect
  | delParagraphVectors (keys : List (List Char)) : DelEffect
  | delEntityVectors (keys : List (List Char)) : DelEffect
  | delRelationVectors (keys : List (List Char)) : DelEffect
  | kgDeleteParagraphs (pgHashes : List (List Char))
      (entHashes : Option (List (List Char))) (removeOrphans : Bool) : DelEffect
  | rebuildIndex : DelEffect
  | saveEmbeddings : DelEffect
  | saveKG : DelEffect
deriving Repr, DecidableEq

/-- How `main` terminates: `sys.exit(1)` with an error report, or a normal
return. -/
inductive DelExit where
  | exitErr : DelExit
  | ret : DelExit
deriving Repr, DecidableEq

/-- Embedding of `main` from the point where the raw identifier lists have
been collected (delete_lpmm_items.py lines 230–331): de-duplicate, derive
keys and hashes, derive entity/relation hashes, compute the candidate node
total, then run the dry-run / safety-threshold / confirmation gates before
touching any store.  `sha256` stands for the external `get_sha256`
(`src/chat/knowledge/utils/hash.py`, not under the sources; only applied
pointwise, its values never inspected).  `confirm` is the interactive
answer read when `--yes` is absent.  Returns the effect trace (empty iff
nothing was loaded or mutated) and the exit mode. -/
def mainDeletePhase (sha256 : List Char → List Char) (a : DelArgs)
    (rawHashes rawEntities rawRelations : List (List Char))
    (confirm : List Char) : List DelEffect × DelExit :=
  let rawH := dedupeKeepFirst [] rawHashes
  if rawH.isEmpty then ([], .exitErr)
  else
    let norm := normalizeParagraphKeys rawH
    let keys := norm.1
    let pgHashes := norm.2
    let entHashes :=
      if a.deleteEntities && !rawEntities.isEmpty then rawEntities.map sha256 else []
    let relHashes :=
      if a.deleteRelations && !rawRelations.isEmpty then rawRelations.map sha256 else []
    let totalNodes : Nat :=
      pgHashes.length + (if a.deleteEntities then entHashes.length else 0)
    if a.dryRun then ([], .ret)
    else if a.maxDeleteNodes < (totalNodes : Int) && !a.yes then ([], .exitErr)
    else if !a.yes && !(confirm == "YES".data) then ([], .ret)
    else
      ([DelEffect.loadStores, DelEffect.delParagraphVectors keys] ++
        (if !entHashes.isEmpty then
          [DelEffect.delEntityVectors (entHashes.map (fun h => "entity-".data ++ h))]
         else []) ++
        (if !relHashes.isEmpty then
          [DelEffect.delRelationVectors (relHashes.map (fun h => "relation-".data ++ h))]
         else []) ++
        [DelEffect.kgDeleteParagraphs pgHashes
          (if a.deleteEntities then some entHashes else none) a.removeOrphanEntities,
         DelEffect.rebuildIndex, DelEffect.saveEmbeddings, DelEffect.saveKG],
       .ret)

/-- The candidate node total computed by `main` (delete_lpmm_items.py line
256): deduplicated paragraph hashes plus entity hashes when entity deletion
is requested. -/
def totalNodesOf (a : DelArgs) (rawHashes rawEntities : List (List Char)) : Nat :=
  (normalizeParagraphKeys (dedupeKeepFirst [] rawHashes)).2.length +
    (if a.deleteEntities then
      (if a.deleteEntities && !rawEntities.isEmpty then rawEntities.length else 0)
     else 0)

/-! ## `MessageRecorder._update_person_list` (message_recorder.py 224–287) -/

/-- The stored per-participant record (`PersonInfo`, message_recorder.py
lines 17–29). -/
structure PersonRec where
  userId : List Char
  userPlatform : List Char
  userNickname : List Char
  userCardname : Option (List Char)
  personName : List Char
  lastSeenTime : Int
deriving Repr, DecidableEq

/-- One message as seen by `_update_person_list` after attribute access:
the sender fields (already defaulted to `''` by the `getattr(...) or ''`
chains) and the person name resolved through the external
`person_info.Person` lookup (that module is outside the sources; only the
resolved string reaches the list, so it is carried as a field). -/
structure RecMsg where
  userId : List Char
  userPlatform : List Char
  userNickname : List Char
  userCardname : Option (List Char)
  personName : List Char
  time : Int
deriving Repr, DecidableEq

/-- Python `f"{user_platform}:{user_id}"`. -/
def uniqueKeyOf (m : RecMsg) : List Char :=
  m.userPlatform ++ ':' :: m.userId

/-- The fresh `PersonInfo` built for a new participant
(message_recorder.py lines 278–285). -/
def newPersonRec (m : RecMsg) : PersonRec :=
  { userId := m.userId, userPlatform := m.userPlatform,
    userNickname := m.userNickname, userCardname := m.userCardname,
    personName := m.personName, lastSeenTime := m.time }

/-- The participant list: an `OrderedDict` modelled as an association list,
front = oldest (first inserted / least recently touched), back = newest.
Keys are unique by construction (`OrderedDict`). -/
abbrev PersonList := List (List Char × PersonRec)

/-- Processing of a single message by `_update_person_list`
(message_recorder.py, loop body, lines 231–287):
* a message with an empty `user_id` or `user_platform` is skipped;
* an already-present key has its record's `last_seen_time` updated and is
  moved to the end (`move_to_end`);
* a new key is appended at the end, after evicting the front entry
  (`next(iter(...))` + `del`) when the list already holds `maxCount`
  entries (`len >= self._max_person_count`). -/
def updatePersonStep (maxCount : Nat) (pl : PersonList) (m : RecMsg) :
    PersonList :=
  if m.userId.isEmpty || m.userPlatform.isEmpty then pl
  else
    let key := uniqueKeyOf m
    match pl.find? (fun kv => kv.1 == key) with
    | some kv =>
      pl.eraseP (fun e => e.1 == key) ++
        [(key, { kv.2 with lastSeenTime := m.time })]
    | none =>
      let pl' := if maxCount ≤ pl.length then pl.tail else pl
      pl' ++ [(key, newPersonRec m)]

/-- Embedding of `_update_person_list` over a whole message batch. -/
def updatePersonList (maxCount : Nat) (pl : PersonList)
    (msgs : List RecMsg) : PersonList :=
  msgs.foldl (updatePersonStep maxCount) pl

/-- The constant `self._max_person_count = 30` (message_recorder.py line 51). -/
def maxPersonCount : Nat := 30

/-- Concrete data for the `person_list_lru` witness: a new participant and
a full 30-entry list holding a different key. -/
def lruWitnessMsg : RecMsg :=
  ⟨"u".data, "qq".data, [], none, "n".data, 0⟩

def lruWitnessFull : PersonList :=
  List.replicate 30 ("x".data, ⟨"x".data, [], [], none, [], 0⟩)

/-! ## `ModelPerformanceCache._load` (model_performance_cache.py 36–56) -/

/-- The on-disk situation `_load` faces: the file is missing, or reading +
`json.load` raises (corrupted content), or it parses to a value. -/
abbrev CacheFile := Option (Except Unit PyVal)

/-- Embedding of `ModelPerformanceCache._load`:
* missing file → `{}`;
* unreadable / unparseable file → exception caught → `{}`;
* non-dict top level → falls through the `isinstance` guard → `{}`;
* dict: keep only the entries whose value is itself a dict, and inside
  each, only the metric entries whose value is a dict. -/
def cacheLoad (file : CacheFile) :
    List (List Char × List (List Char × PyVal)) :=
  match file with
  | none => []
  | some (.error _) => []
  | some (.ok data) =>
    match data with
    | .obj entries =>
      entries.filterMap (fun kv =>
        match kv.2 with
        | .obj inner =>
          some (kv.1, inner.filterMap (fun mkv =>
            match mkv.2 with
            | .obj m => some (mkv.1, PyVal.obj m)
            | _ => none))
        | _ => none)
    | _ => []

/-! ## Helper lemmas -/

theorem keepEntity_spec (d : List (List Char)) (v : PyVal)
    (h : keepEntity d v = true) :
    v ≠ PyVal.null ∧ v ≠ PyVal.str [] ∧ ∀ s ∈ d, v ≠ PyVal.str s := by
  cases v with
  | null => simp [keepEntity] at h
  | str s =>
    simp only [keepEntity, Bool.and_eq_true, Bool.not_eq_true'] at h
    obtain ⟨h1, h2⟩ := h
    refine ⟨by simp, ?_, ?_⟩
    · simp only [ne_eq, PyVal.str.injEq]
      intro he
      rw [he] at h1
      simp at h1
    · intro s' hs' he
      rw [PyVal.str.injEq] at he
      subst he
      have : d.contains s = true := List.elem_eq_true_of_mem hs'
      rw [this] at h2
      cases h2
  | bool b => exact ⟨by simp, by simp, fun s _ => by simp⟩
  | num n => exact ⟨by simp, by simp, fun s _ => by simp⟩
  | arr l => exact ⟨by simp, by simp, fun s _ => by simp⟩
  | obj kv => exact ⟨by simp, by simp, fun s _ => by simp⟩

theorem entityExtractResult_ok (d : List (List Char)) (r : PyVal)
    (l : List PyVal) (h : entityExtractResult d r = .ok l) :
    l ≠ [] ∧ ∀ v ∈ l, keepEntity d v = true := by
  simp only [entityExtractResult] at h
  split at h
  · exact absurd h (by simp)
  · rename_i l0 heq
    split at h
    · exact absurd h (by simp)
    · rename_i hne
      rw [Except.ok.injEq] at h
      subst h
      refine ⟨by simpa [List.isEmpty_iff] using hne, ?_⟩
      intro v hv
      exact (List.mem_filter.mp hv).2

/-- C7: every entity list returned by a successful `_entity_extract` attempt
contains no `None`, no empty string, and no denylisted placeholder entity;
an attempt whose list is empty after filtering raises instead of returning
the empty list, so a successful result is never empty. -/
theorem entity_filter_sound :
    ∀ (denylist : List (List Char)) (r : PyVal) (l : List PyVal),
      entityExtractResult denylist r = .ok l →
      l ≠ [] ∧ ∀ v ∈ l,
        v ≠ PyVal.null ∧ v ≠ PyVal.str [] ∧ ∀ s ∈ denylist, v ≠ PyVal.str s := by
  intro d r l h
  obtain ⟨hne, hall⟩ := entityExtractResult_ok d r l h
  exact ⟨hne, fun v hv => keepEntity_spec d v (hall v hv)⟩

/-- Witness for `entity_filter_sound` at a concrete successful attempt. -/
theorem entity_filter_sound_witness :
    [PyVal.str "猫".data] ≠ [] ∧ ∀ v ∈ [PyVal.str "猫".data],
      v ≠ PyVal.null ∧ v ≠ PyVal.str [] ∧
        ∀ s ∈ (["未知".data] : List (List Char)), v ≠ PyVal.str s :=
  entity_filter_sound ["未知".data] (.arr [.str "猫".data, .null])
    [PyVal.str "猫".data] rfl

/-- C6: `_extract_json_from_text` is total on its whole input domain —
a `None` input and a failed repair/parse are both mapped to `[]` rather
than propagating — and a parsed dict with exactly one key whose value is a
list is unwrapped to that inner list. -/
theorem extract_json_total :
    extractJsonFromText none = .arr [] ∧
    (∀ e, extractJsonFromText (some (.error e)) = .arr []) ∧
    (∀ k l, extractJsonFromText (some (.ok (.obj [(k, .arr l)]))) = .arr l) :=
  ⟨rfl, fun _ => rfl, fun _ _ => rfl⟩

/-- C3: on the paragraph `"猫：是一种常见的宠物动物。"` with entities
`["猫", "动物"]`, the deterministic fallback returns exactly
`[["猫", "是", "一种常见的宠物动物"]]`, and `_rdf_triple_extract` returns
exactly that triple when the model's triple list is empty. -/
theorem fallback_concrete_cat :
    fallbackRdfTriples "猫：是一种常见的宠物动物。".data
        [.str "猫".data, .str "动物".data] =
      .ok [["猫".data, "是".data, "一种常见的宠物动物".data]] ∧
    rdfTripleExtractPost (.arr []) "猫：是一种常见的宠物动物。".data
        [.str "猫".data, .str "动物".data] =
      .ok [.arr [.str "猫".data, .str "是".data, .str "一种常见的宠物动物".data]] :=
  ⟨rfl, rfl⟩

theorem rdfTripleExtractPost_ok (r : PyVal) (p : List Char)
    (ents : List PyVal) (t : List PyVal)
    (h : rdfTripleExtractPost r p ents = .ok t) :
    t ≠ [] ∧ ∀ tr ∈ t, badTriple tr = false := by
  simp only [rdfTripleExtractPost] at h
  split at h
  · exact absurd h (by simp)
  · rename_i l heq
    split at h
    · exact absurd h (by simp)
    · rename_i result hres
      split at h
      · exact absurd h (by simp)
      · rename_i hany
        rw [Except.ok.injEq] at h
        subst h
        simp only [Bool.not_eq_true] at hany
        refine ⟨?_, fun tr htr => by
          simpa using List.any_eq_false.mp hany tr htr⟩
        -- nonemptiness: analyse how `result` was produced
        split at hres
        · rename_i hemp
          split at hres
          · exact absurd hres (by simp)
          · exact absurd hres (by simp)
          · rename_i hcon hfb
            rw [Except.ok.injEq] at hres
            subst hres
            simpa using hcon
        · rename_i hemp
          rw [Except.ok.injEq] at hres
          subst hres
          simpa [List.isEmpty_iff] using hemp

theorem rdf_bad_item_errors (l : List PyVal) (p : List Char)
    (ents : List PyVal) (tr : PyVal) (htr : tr ∈ l)
    (hbad : badTriple tr = true) :
    rdfTripleExtractPost (.arr l) p ents = .error () := by
  have hemp : l.isEmpty = false := by
    cases l
    · cases htr
    · rfl
  have hany : l.any badTriple = true := List.any_eq_true.mpr ⟨tr, htr, hbad⟩
  simp [rdfTripleExtractPost, hemp, hany]

/-- C4 counterexample: in `_rdf_triple_extract`, an item failing the shape
check is not dropped — it makes the whole attempt raise (the valid first
item is lost too) — and a successful result may contain non-string
elements (the shape check never tests string-ness). -/
theorem rdf_shape_counterexample :
    rdfTripleExtractPost
        (.arr [.arr [.str "a".data, .str "b".data, .str "c".data],
               .arr [.str "x".data]]) "p".data [] = .error () ∧
    rdfTripleExtractPost
        (.arr [.arr [.str "a".data, .str "b".data, .str "c".data],
               .arr [.str "x".data]]) "p".data [] ≠
      .ok [.arr [.str "a".data, .str "b".data, .str "c".data]] ∧
    rdfTripleExtractPost (.arr [.arr [.num 1, .num 2, .num 3]]) "p".data [] =
      .ok [.arr [.num 1, .num 2, .num 3]] :=
  ⟨rfl, fun h => by
    rw [show rdfTripleExtractPost
        (.arr [.arr [.str "a".data, .str "b".data, .str "c".data],
               .arr [.str "x".data]]) "p".data [] = Except.error () from rfl] at h
    exact Except.noConfusion h, rfl⟩

/-- C4 (amended): an item failing the shape check (a list of exactly 3
elements, none `None` and none equal to `""`) makes the entire extraction
attempt raise — it is neither coerced nor dropped — and every triple in a
successful result of `_rdf_triple_extract` passes that check (string-ness
of the elements is not enforced). -/
theorem rdf_shape_enforced :
    (∀ (r : PyVal) (p : List Char) (ents : List PyVal) (t : List PyVal),
      rdfTripleExtractPost r p ents = .ok t →
      ∀ tr ∈ t, badTriple tr = false) ∧
    (∀ (l : List PyVal) (p : List Char) (ents : List PyVal) (tr : PyVal),
      tr ∈ l → badTriple tr = true →
      rdfTripleExtractPost (.arr l) p ents = .error ()) :=
  ⟨fun r p ents t h => (rdfTripleExtractPost_ok r p ents t h).2,
   fun l p ents tr htr hbad => rdf_bad_item_errors l p ents tr htr hbad⟩

/-- Witness for `rdf_shape_enforced` at concrete inputs: a successful
result (all triples well-shaped) and a raising attempt (one malformed
item). -/
theorem rdf_shape_enforced_witness :
    (∀ tr ∈ [PyVal.arr [.str "a".data, .str "b".data, .str "c".data]],
      badTriple tr = false) ∧
    rdfTripleExtractPost (.arr [.arr [.str "x".data]]) "p".data [] =
      .error () :=
  ⟨rdf_shape_enforced.1
      (.arr [.arr [.str "a".data, .str "b".data, .str "c".data]]) "p".data []
      [PyVal.arr [.str "a".data, .str "b".data, .str "c".data]] rfl,
   rdf_shape_enforced.2 [.arr [.str "x".data]] "p".data []
      (.arr [.str "x".data]) (by simp) rfl⟩

theorem retryLoopAux_some {α : Type} (s : Nat) (att : Nat → Except Unit α) :
    ∀ (fuel k : Nat) (a : α), (retryLoopAux s att k fuel).2 = some a →
      ∃ i, att i = .ok a := by
  intro fuel
  induction fuel with
  | zero =>
    intro k a h
    simp only [retryLoopAux] at h
    split at h
    · rename_i a' ha'
      exact ⟨k, by rw [ha']; simpa using h⟩
    · simp at h
  | succ f ih =>
    intro k a h
    simp only [retryLoopAux] at h
    split at h
    · rename_i a' ha'
      exact ⟨k, by rw [ha']; simpa using h⟩
    · exact ih (k + 1) a (by simpa using h)

/-- C2: if entity extraction fails on every attempt,
`info_extract_from_str` makes exactly 3 entity attempts with a
`time.sleep(5)` between consecutive attempts and returns `(None, None)`;
and whenever entity extraction first succeeds at attempt `j` (after `j`
failures, `j < 3`) and relation extraction fails on every attempt, the
relation stage gets its own fresh, independent budget of exactly 3
attempts (indices 0, 1, 2) with the same 5-second delays — the
`try_count = 0` reset at ie_process.py line 212 — and the result is
`(None, None)`. -/
theorem retry_ceiling :
    (∀ (entAttempts : Nat → Except Unit (List PyVal))
       (rdfAttempts : List PyVal → Nat → Except Unit (List PyVal)),
      (∀ k, entAttempts k = .error ()) →
      infoExtractFromStr entAttempts rdfAttempts =
        ([.att 1 0, .sleep 1 5, .att 1 1, .sleep 1 5, .att 1 2], none)) ∧
    (∀ (entAttempts : Nat → Except Unit (List PyVal))
       (rdfAttempts : List PyVal → Nat → Except Unit (List PyVal))
       (j : Nat) (ents : List PyVal),
      j < 3 →
      (∀ k, k < j → entAttempts k = .error ()) →
      entAttempts j = .ok ents →
      (∀ k, rdfAttempts ents k = .error ()) →
      infoExtractFromStr entAttempts rdfAttempts =
        ((List.range j).flatMap (fun i => [RetryEv.att 1 i, RetryEv.sleep 1 5]) ++
          [RetryEv.att 1 j, RetryEv.att 2 0, RetryEv.sleep 2 5,
           RetryEv.att 2 1, RetryEv.sleep 2 5, RetryEv.att 2 2],
         none)) := by
  constructor
  · intro entA rdfA h
    simp [infoExtractFromStr, retryLoop, retryLoopAux, h 0, h 1, h 2]
  · intro entA rdfA j ents hj hfail hsucc hrdf
    interval_cases j
    · simp [infoExtractFromStr, retryLoop, retryLoopAux, hsucc,
        hrdf 0, hrdf 1, hrdf 2]
    · simp only [infoExtractFromStr, retryLoop, retryLoopAux, hsucc,
        hfail 0 (by omega), hrdf 0, hrdf 1, hrdf 2]
      rfl
    · simp only [infoExtractFromStr, retryLoop, retryLoopAux, hsucc,
        hfail 0 (by omega), hfail 1 (by omega), hrdf 0, hrdf 1, hrdf 2]
      rfl

/-- Witness for `retry_ceiling`: an always-failing entity stage, and a run
whose entity stage succeeds only at attempt 2 (after two failures) while
the relation stage fails on every attempt of its fresh 3-attempt budget. -/
theorem retry_ceiling_witness :
    infoExtractFromStr (fun _ => .error ()) (fun _ _ => .error ()) =
      ([.att 1 0, .sleep 1 5, .att 1 1, .sleep 1 5, .att 1 2], none) ∧
    infoExtractFromStr
        (fun k => if k < 2 then .error () else .ok [PyVal.str "猫".data])
        (fun _ _ => .error ()) =
      ([.att 1 0, .sleep 1 5, .att 1 1, .sleep 1 5, .att 1 2,
        .att 2 0, .sleep 2 5, .att 2 1, .sleep 2 5, .att 2 2], none) :=
  ⟨retry_ceiling.1 (fun _ => .error ()) (fun _ _ => .error ())
      (fun _ => rfl),
   by simpa using
      (retry_ceiling.2
        (fun k => if k < 2 then .error () else .ok [PyVal.str "猫".data])
        (fun _ _ => .error ()) 2 [PyVal.str "猫".data]
        (by omega) (fun k hk => by simp [hk]) rfl (fun _ => rfl))⟩

/-- C5: `info_extract_from_str` returns either the `(None, None)` failure
signal or a pair of lists that are both non-empty — never a partial
result with entities but no triples or vice versa, whatever the model
responses are. -/
theorem extraction_all_or_nothing :
    ∀ (denylist : List (List Char)) (paragraph : List Char)
      (entResponses rdfResponses : Nat → ParseOutcome)
      (e t : List PyVal),
      (infoExtractFull denylist paragraph entResponses rdfResponses).2 =
        some (e, t) →
      e ≠ [] ∧ t ≠ [] := by
  intro d p er rr e t h
  simp only [infoExtractFull, infoExtractFromStr] at h
  split at h
  · simp at h
  · rename_i ents hstage1
    split at h
    · simp at h
    · rename_i triples hstage2
      simp only [Option.some.injEq, Prod.mk.injEq] at h
      obtain ⟨rfl, rfl⟩ := h
      simp only [retryLoop] at hstage1 hstage2
      constructor
      · obtain ⟨i, hi⟩ := retryLoopAux_some 1 _ 2 0 ents hstage1
        exact (entityExtractResult_ok d _ ents hi).1
      · obtain ⟨i, hi⟩ := retryLoopAux_some 2 _ 2 0 triples hstage2
        exact (rdfTripleExtractPost_ok _ p ents triples hi).1

/-- Witness for `extraction_all_or_nothing` at a concrete run: entity extraction
succeeds at once, the relation stage goes through the fallback. -/
theorem extraction_all_or_nothing_witness :
    ([PyVal.str "猫".data, PyVal.str "动物".data] ≠ ([] : List PyVal)) ∧
    ([PyVal.arr [.str "猫".data, .str "是".data,
        .str "一种常见的宠物动物".data]] ≠ ([] : List PyVal)) :=
  extraction_all_or_nothing [] "猫：是一种常见的宠物动物。".data
    (fun _ => some (.ok (.arr [.str "猫".data, .str "动物".data])))
    (fun _ => some (.ok (.arr [])))
    [PyVal.str "猫".data, PyVal.str "动物".data]
    [PyVal.arr [.str "猫".data, .str "是".data,
        .str "一种常见的宠物动物".data]] rfl

theorem updatePersonStep_length (pl : PersonList) (m : RecMsg)
    (h : pl.length ≤ maxPersonCount) :
    (updatePersonStep maxPersonCount pl m).length ≤ maxPersonCount := by
  simp only [updatePersonStep]
  split
  · exact h
  · rcases hfind : pl.find? (fun kv => kv.1 == uniqueKeyOf m) with _ | kv
    · simp only [hfind]
      split
      · rename_i hge
        rw [List.length_append, List.length_singleton, List.length_tail]
        simp only [maxPersonCount] at h hge ⊢
        omega
      · rename_i hlt
        rw [List.length_append, List.length_singleton]
        simp only [maxPersonCount, not_le] at hlt ⊢
        omega
    · simp only [hfind]
      have hmem : kv ∈ pl := List.mem_of_find?_eq_some hfind
      have hp := List.find?_some hfind
      rw [List.length_append, List.length_singleton,
        List.length_eraseP_add_one hmem hp]
      exact h

theorem updatePersonList_length (msgs : List RecMsg) :
    ∀ pl : PersonList, pl.length ≤ maxPersonCount →
      (updatePersonList maxPersonCount pl msgs).length ≤ maxPersonCount := by
  induction msgs with
  | nil => intro pl h; exact h
  | cons m rest ih =>
    intro pl h
    exact ih _ (updatePersonStep_length pl m h)

/-- C8: the participant list is a bounded LRU set: starting from any state
within the 30-entry capacity, `_update_person_list` keeps it within
capacity for any message batch; and a valid message from a new participant
arriving at a full list evicts the front (least-recently-touched) entry
before appending the new one at the back. -/
theorem person_list_lru :
    (∀ (pl : PersonList) (msgs : List RecMsg),
      pl.length ≤ maxPersonCount →
      (updatePersonList maxPersonCount pl msgs).length ≤ maxPersonCount) ∧
    (∀ (pl : PersonList) (m : RecMsg),
      m.userId ≠ [] → m.userPlatform ≠ [] →
      (∀ kv ∈ pl, kv.1 ≠ uniqueKeyOf m) →
      pl.length = maxPersonCount →
      updatePersonStep maxPersonCount pl m =
        pl.tail ++ [(uniqueKeyOf m, newPersonRec m)]) := by
  constructor
  · intro pl msgs h
    exact updatePersonList_length msgs pl h
  · intro pl m hid hplat hfresh hlen
    have h1 : m.userId.isEmpty = false := by
      cases hm : m.userId
      · exact absurd hm hid
      · rfl
    have h2 : m.userPlatform.isEmpty = false := by
      cases hm : m.userPlatform
      · exact absurd hm hplat
      · rfl
    have hfind : pl.find? (fun kv => kv.1 == uniqueKeyOf m) = none :=
      List.find?_eq_none.mpr (fun kv hkv => by
        simpa using hfresh kv hkv)
    simp only [updatePersonStep, h1, h2, hfind, hlen, le_refl, if_true,
      Bool.or_self, Bool.false_eq_true, if_false]

/-- Witness for `person_list_lru`: a batch into an empty list stays within
capacity, and a new participant hitting a full 30-entry list replaces the
front entry. -/
theorem person_list_lru_witness :
    (updatePersonList maxPersonCount [] [lruWitnessMsg]).length ≤
      maxPersonCount ∧
    updatePersonStep maxPersonCount lruWitnessFull lruWitnessMsg =
      lruWitnessFull.tail ++
        [(uniqueKeyOf lruWitnessMsg, newPersonRec lruWitnessMsg)] :=
  ⟨person_list_lru.1 [] [lruWitnessMsg] (by decide),
   person_list_lru.2 lruWitnessFull lruWitnessMsg
     (by decide) (by decide) (by decide) (by decide)⟩

/-- C9: loading the model performance cache never fails: a missing file, a
raising read/parse, and a non-dict top level all load as the empty cache,
and a top-level entry whose value is not a dict never reaches the loaded
cache. -/
theorem cache_load_never_fatal :
    cacheLoad none = [] ∧
    (∀ e, cacheLoad (some (.error e)) = []) ∧
    (∀ v : PyVal, v.isObj = false → cacheLoad (some (.ok v)) = []) ∧
    (∀ (entries : List (List Char × PyVal)) (k : List Char)
       (inner : List (List Char × PyVal)),
      (k, inner) ∈ cacheLoad (some (.ok (.obj entries))) →
      ∃ v, (k, v) ∈ entries ∧ v.isObj = true) := by
  refine ⟨rfl, fun _ => rfl, ?_, ?_⟩
  · intro v hv
    cases v <;> first | rfl | simp [PyVal.isObj] at hv
  · intro entries k inner hmem
    simp only [cacheLoad, List.mem_filterMap] at hmem
    obtain ⟨⟨k0, v0⟩, hkv, heq⟩ := hmem
    cases v0 with
    | obj inner0 =>
      simp only [Option.some.injEq, Prod.mk.injEq] at heq
      obtain ⟨hk, -⟩ := heq
      subst hk
      exact ⟨PyVal.obj inner0, hkv, rfl⟩
    | null => exact absurd heq (by simp)
    | bool b => exact absurd heq (by simp)
    | num n => exact absurd heq (by simp)
    | str st => exact absurd heq (by simp)
    | arr l => exact absurd heq (by simp)

/-- Witness for `cache_load_never_fatal`: a non-dict top level loads empty,
and a surviving entry indeed had a dict value. -/
theorem cache_load_never_fatal_witness :
    cacheLoad (some (.ok (.num 3))) = [] ∧
    ∃ v, ("a".data, v) ∈ [("a".data, PyVal.obj [])] ∧ v.isObj = true :=
  ⟨cache_load_never_fatal.2.2.1 (.num 3) rfl,
   cache_load_never_fatal.2.2.2 [("a".data, PyVal.obj [])] "a".data
     ([] : List (List Char × PyVal)) (List.mem_singleton.mpr rfl)⟩

/-- C1: a non-dry-run deletion request whose candidate node count
(paragraphs plus entities when entity deletion is requested) exceeds
`--max-delete-nodes` without `--yes` makes `main` exit with the error
report and an empty effect trace: the stores are never loaded and nothing
is mutated. -/
theorem deletion_safety_valve :
    ∀ (sha256 : List Char → List Char) (a : DelArgs)
      (rawHashes rawEntities rawRelations : List (List Char))
      (confirm : List Char),
      a.dryRun = false → a.yes = false →
      a.maxDeleteNodes < (totalNodesOf a rawHashes rawEntities : Int) →
      mainDeletePhase sha256 a rawHashes rawEntities rawRelations confirm =
        ([], .exitErr) := by
  intro sha a rawH rawE rawR confirm hdry hyes hthr
  simp only [mainDeletePhase, hdry, hyes, Bool.not_false, Bool.and_true,
    Bool.false_eq_true, if_false, decide_eq_true_eq]
  split
  · rfl
  · cases hde : a.deleteEntities with
    | false =>
      simp only [hde, Bool.false_and, Bool.false_eq_true, if_false]
      split
      · rfl
      · rename_i hcond
        exact absurd (by simpa [totalNodesOf, hde] using hthr) hcond
    | true =>
      simp only [hde, Bool.true_and, if_true]
      cases hre : rawE.isEmpty with
      | true =>
        simp only [hre, Bool.not_true, Bool.false_eq_true, if_false]
        split
        · rfl
        · rename_i hcond
          exact absurd (by simpa [totalNodesOf, hde, hre] using hthr) hcond
      | false =>
        simp only [hre, Bool.not_false, if_true]
        split
        · rfl
        · rename_i hcond
          exact absurd (by simpa [totalNodesOf, hde, hre] using hthr) hcond

/-- Witness for `deletion_safety_valve`: two paragraph hashes against a
threshold of 1, no `--yes`, no dry run. -/
theorem deletion_safety_valve_witness :
    mainDeletePhase id ⟨false, false, false, false, false, 1⟩
      ["a".data, "b".data] [] [] [] = ([], .exitErr) :=
  deletion_safety_valve id ⟨false, false, false, false, false, 1⟩
    ["a".data, "b".data] [] [] [] rfl rfl (by decide)

theorem removeFirstOcc_of_pref (pat h : List Char)
    (hp : pat.isPrefixOf h = true) :
    removeFirstOcc pat h = h.drop pat.length := by
  cases h with
  | nil => simp [removeFirstOcc]
  | cons c t => simp [removeFirstOcc, hp]

theorem pref_append_drop (pat h : List Char) (hp : pat.isPrefixOf h = true) :
    pat ++ h.drop pat.length = h := by
  obtain ⟨t, rfl⟩ := List.isPrefixOf_iff_prefix.mp hp
  rw [List.drop_left]

theorem normalizeParagraphKeys_eq_map :
    ∀ raw : List (List Char),
      normalizeParagraphKeys raw =
        (raw.map (fun h => if paragraphTag.isPrefixOf h then h
           else paragraphTag ++ h),
         raw.map (fun h => if paragraphTag.isPrefixOf h then
           h.drop paragraphTag.length else h)) := by
  intro raw
  induction raw with
  | nil => rfl
  | cons h t ih =>
    simp only [normalizeParagraphKeys, ih, List.map_cons]
    cases hp : paragraphTag.isPrefixOf h with
    | true => simp [hp, removeFirstOcc_of_pref _ _ hp]
    | false => simp [hp]

/-- C10: `normalize_paragraph_keys` returns two lists of equal length with
`keys[i] = "paragraph-" ++ hashes[i]` at every index; an input already
carrying the `"paragraph-"` tag is kept as the key and has the tag
stripped exactly once (its first occurrence, which is the leading one) for
the hash, and any other input is the hash and is prefixed unchanged for
the key. -/
theorem normalize_keys_pointwise :
    ∀ raw : List (List Char),
      List.Forall₂ (fun k hs => k = paragraphTag ++ hs)
        (normalizeParagraphKeys raw).1 (normalizeParagraphKeys raw).2 ∧
      normalizeParagraphKeys raw =
        (raw.map (fun h => if paragraphTag.isPrefixOf h then h
           else paragraphTag ++ h),
         raw.map (fun h => if paragraphTag.isPrefixOf h then
           h.drop paragraphTag.length else h)) := by
  intro raw
  refine ⟨?_, normalizeParagraphKeys_eq_map raw⟩
  rw [normalizeParagraphKeys_eq_map raw]
  induction raw with
  | nil => exact List.Forall₂.nil
  | cons h t ih =>
    simp only [List.map_cons]
    refine List.Forall₂.cons ?_ ih
    cases hp : paragraphTag.isPrefixOf h with
    | true =>
      simp only [hp, if_true]
      exact (pref_append_drop _ _ hp).symm
    | false => simp [hp]
